import Mathlib

/-!
Verification of the bt-cli device directory and pairing bridge.

The definitions below are a shallow embedding of the Rust sources:
  * `src/bluetooth/bluez/mod.rs`  (D-Bus backend: `pair_device`,
    `connect_device`, the reply matcher and the `DBusBluetoothAgent`
    challenge callbacks),
  * `src/bluetooth/devices.rs`    (device registry: `Device`,
    `DeviceList`, filtering, the `_async_all_devices!` bulk macro and
    the `print_lines` column layout),
  * `src/bluetooth.rs`            (older process-backed snapshot; its
    threaded `_async_all_devices!` macro and `fill` metadata updates).

Machine integers are modelled as `Nat` with an explicit `% 65536`
where the source performs `u16` arithmetic that can overflow
(the running `total_w` accumulator of the column layout).  Mutex
acquisition is modelled as succeeding; lock poisoning is modelled
explicitly (as a boolean on the record) exactly where a claim is
about poisoning, mirroring `lock().expect(...)` panics as `Except`
errors and `if let Ok(..) = lock()` as a skip.
-/

/-- Model of `dbus::Error` (only the error name is inspected by the code). -/
structure DBusError where
  name : Option String
deriving Repr, DecidableEq

/-- Model of an inbound `dbus::Message`: the reply serial returned by
`get_reply_serial` and, via `as_result`, whether the message is an error
reply (`some e`) or a successful one (`none`). -/
structure Msg where
  reply_serial : Option Nat
  error : Option DBusError
deriving Repr, DecidableEq

/-- `Message::as_result`: `Ok` for a non-error message, `Err` with the
error otherwise. -/
def Msg.as_result (m : Msg) : Except DBusError Unit :=
  match m.error with
  | none => Except.ok ()
  | some e => Except.error e

/-- The shared state the `pair_device` closure and its caller communicate
through: the `return_value` result cell and the `answer_pending` flag. -/
structure MatcherState where
  return_value : Bool
  answer_pending : Bool
deriving Repr, DecidableEq

/-- Computation of `is_paired` inside the reply matcher of
`DBusBluetoothManager::pair_device`: `Ok(_) => true`, and an error reply
is treated as success exactly when it is named
`org.bluez.Error.AlreadyExists`. -/
def pair_answer_success (answer : Msg) : Bool :=
  match answer.as_result with
  | Except.ok _ => true
  | Except.error e => e.name = some "org.bluez.Error.AlreadyExists"

/-- The reply-matching closure registered by `pair_device`
(`src/bluetooth/bluez/mod.rs:214-231`).  Input: the recorded serial of
the sent "Pair" request (`pair_reply_serial`), the shared state, and the
inbound message.  Output: the new shared state and the boolean the
closure returns to `start_receive` (`true` keeps the matcher
registered). -/
def pair_reply_matcher (serial : Option Nat) (st : MatcherState) (answer : Msg) :
    MatcherState × Bool :=
  if serial ≠ answer.reply_serial ∨ serial = none then
    (st, true)
  else
    ({ return_value := pair_answer_success answer, answer_pending := false }, false)

/-- The caller-side message pump of `pair_device`:
`while answer_pending { connection.process(..) }`, with the inbound
bluez-sender messages delivered to the registered matcher one by one. -/
def pump (serial : Option Nat) : MatcherState → List Msg → MatcherState
  | st, [] => st
  | st, m :: ms =>
    if st.answer_pending then pump serial (pair_reply_matcher serial st m).1 ms else st

/-- Device record (`src/bluetooth/devices.rs`, `struct Device`).  The weak
back-reference to the manager is modelled as present or absent. -/
structure Device where
  address : String
  name : String
  manager_alive : Bool
  paired : Bool
  bonded : Bool
  trusted : Bool
  blocked : Bool
  connected : Bool
  remote_name : Option String
  battery : Option Nat
  icon : Option String
  name_in_color : Bool
deriving Repr, DecidableEq

/-- Transport (bus) interactions `pair_device` / `connect_device` can
issue, recorded as a trace. -/
inductive BusCall
  | register_agent
  | send_pair
  | process
  | connect_call
  | disconnect_call
deriving Repr, DecidableEq

/-- Environment of the D-Bus backend for one `pair_device` /
`connect_device` call: the `address_dbus_paths` lookup, outcomes of the
external bus operations, and the inbound messages the connection
delivers while pumping. -/
structure BusWorld where
  device_path : String → Option String
  register_ok : Bool
  msg_ok : Bool
  send_serial : Option Nat
  inbound : List Msg
  connect_outcome : Except DBusError Unit

/-- `DBusBluetoothManager::pair_device`
(`src/bluetooth/bluez/mod.rs:190-245`).  Result is `none` when the
pump loop never resolves (the source loops forever), otherwise the
returned boolean together with the trace of transport calls issued.
`_register_agent` issues the `RegisterAgent` bus call; each delivered
inbound message accounts for the `process` transport activity. -/
def pair_device (w : BusWorld) (d : Device) : Option (Bool × List BusCall) :=
  if d.paired then some (true, [])
  else
    match w.device_path d.address with
    | none => some (false, [])
    | some _ =>
      if w.msg_ok then
        let fin := pump w.send_serial { return_value := false, answer_pending := true } w.inbound
        if fin.answer_pending then none
        else
          some (fin.return_value,
            BusCall.register_agent :: BusCall.send_pair ::
              List.replicate w.inbound.length BusCall.process)
      else some (false, [BusCall.register_agent])

/-- Result normalization of `DBusBluetoothManager::connect_device`:
`Ok` is success and the error named `org.bluez.Error.AlreadyConnected`
is also treated as success. -/
def connect_success (r : Except DBusError Unit) : Bool :=
  match r with
  | Except.ok _ => true
  | Except.error e => e.name = some "org.bluez.Error.AlreadyConnected"

/-- `DBusBluetoothManager::connect_device`
(`src/bluetooth/bluez/mod.rs:268-278`), with its transport-call trace. -/
def connect_device (w : BusWorld) (d : Device) : Bool × List BusCall :=
  if d.connected then (true, [])
  else
    match w.device_path d.address with
    | none => (false, [])
    | some _ => (connect_success w.connect_outcome, [BusCall.connect_call])

/-- C1: the reply matcher of `pair_device` keeps the wait pending and
stays registered (returns `true`) for every inbound message whose reply
serial differs from the recorded serial or while no serial is recorded;
only the correlated reply writes the result cell, clears
`answer_pending`, and returns `false` (deregistering the matcher). -/
theorem C1_reply_matcher_correlation (serial : Option Nat) (st : MatcherState) (answer : Msg) :
    (serial ≠ answer.reply_serial ∨ serial = none →
      pair_reply_matcher serial st answer = (st, true)) ∧
    (∀ s : Nat, serial = some s → answer.reply_serial = some s →
      pair_reply_matcher serial st answer =
        ({ return_value := pair_answer_success answer, answer_pending := false }, false)) := by
  constructor
  · intro h
    simp [pair_reply_matcher, h]
  · intro s hs ha
    have hne : ¬ (serial ≠ answer.reply_serial ∨ serial = none) := by
      subst hs
      simp [ha]
    simp [pair_reply_matcher, hne]

/-- Witness for C1 at concrete inputs: serial 5 against a message with
reply serial 7 (kept pending), and against the correlated reply serial
5 (resolved). -/
theorem C1_reply_matcher_correlation_witness :
    pair_reply_matcher (some 5) { return_value := false, answer_pending := true }
        { reply_serial := some 7, error := none } =
      ({ return_value := false, answer_pending := true }, true) ∧
    pair_reply_matcher (some 5) { return_value := false, answer_pending := true }
        { reply_serial := some 5, error := none } =
      ({ return_value := true, answer_pending := false }, false) := by
  refine ⟨(C1_reply_matcher_correlation (some 5) _ _).1 (by decide), ?_⟩
  have h := (C1_reply_matcher_correlation (some 5)
    { return_value := false, answer_pending := true }
    { reply_serial := some 5, error := none }).2 5 rfl rfl
  simpa [pair_answer_success, Msg.as_result] using h

/-- C3: a device already marked paired makes `pair_device` return `true`
with an empty transport trace, and a device already marked connected
makes `connect_device` return `true` with an empty transport trace. -/
theorem C3_idempotent_short_circuit (w : BusWorld) (d : Device) :
    (d.paired = true → pair_device w d = some (true, [])) ∧
    (d.connected = true → connect_device w d = (true, [])) := by
  constructor
  · intro h
    simp [pair_device, h]
  · intro h
    simp [connect_device, h]

/-- Witness for C3: a concrete paired-and-connected device short-circuits
both calls with no transport activity. -/
theorem C3_idempotent_short_circuit_witness :
    pair_device
        { device_path := fun _ => none, register_ok := false, msg_ok := false,
          send_serial := none, inbound := [], connect_outcome := Except.ok () }
        { address := "AA:BB", name := "Mouse", manager_alive := true,
          paired := true, bonded := false, trusted := false, blocked := false,
          connected := true, remote_name := none, battery := none, icon := none,
          name_in_color := true } = some (true, []) ∧
    connect_device
        { device_path := fun _ => none, register_ok := false, msg_ok := false,
          send_serial := none, inbound := [], connect_outcome := Except.ok () }
        { address := "AA:BB", name := "Mouse", manager_alive := true,
          paired := true, bonded := false, trusted := false, blocked := false,
          connected := true, remote_name := none, battery := none, icon := none,
          name_in_color := true } = (true, []) := by
  exact ⟨(C3_idempotent_short_circuit _ _).1 rfl, (C3_idempotent_short_circuit _ _).2 rfl⟩

/-- C4: already-completed conditions reported as bus errors are
normalized to success: the pair reply matcher treats an
`org.bluez.Error.AlreadyExists` error reply as a successful pairing,
`connect_device` treats an `org.bluez.Error.AlreadyConnected` error as a
successful connect, and any other error yields `false` in both. -/
theorem C4_error_normalization (e : DBusError) :
    (pair_answer_success { reply_serial := some 0, error := none } = true) ∧
    (e.name = some "org.bluez.Error.AlreadyExists" →
      pair_answer_success { reply_serial := some 0, error := some e } = true) ∧
    (e.name ≠ some "org.bluez.Error.AlreadyExists" →
      pair_answer_success { reply_serial := some 0, error := some e } = false) ∧
    (connect_success (Except.ok ()) = true) ∧
    (e.name = some "org.bluez.Error.AlreadyConnected" →
      connect_success (Except.error e) = true) ∧
    (e.name ≠ some "org.bluez.Error.AlreadyConnected" →
      connect_success (Except.error e) = false) := by
  refine ⟨rfl, ?_, ?_, rfl, ?_, ?_⟩
  · intro h
    simp [pair_answer_success, Msg.as_result, h]
  · intro h
    simp [pair_answer_success, Msg.as_result, h]
  · intro h
    simp [connect_success, h]
  · intro h
    simp [connect_success, h]

/-- Witness for C4 at the concrete error names: `AlreadyExists` pairs
successfully, `AlreadyConnected` connects successfully, and the generic
`org.bluez.Error.Failed` yields `false` for both. -/
theorem C4_error_normalization_witness :
    pair_answer_success (Msg.mk (some 0) (some (DBusError.mk (some "org.bluez.Error.AlreadyExists")))) = true ∧
    connect_success (Except.error (DBusError.mk (some "org.bluez.Error.AlreadyConnected"))) = true ∧
    pair_answer_success (Msg.mk (some 0) (some (DBusError.mk (some "org.bluez.Error.Failed")))) = false ∧
    connect_success (Except.error (DBusError.mk (some "org.bluez.Error.Failed"))) = false := by
  refine ⟨(C4_error_normalization ⟨some "org.bluez.Error.AlreadyExists"⟩).2.1 rfl,
    (C4_error_normalization ⟨some "org.bluez.Error.AlreadyConnected"⟩).2.2.2.2.1 rfl,
    (C4_error_normalization ⟨some "org.bluez.Error.Failed"⟩).2.2.1 (by decide),
    (C4_error_normalization ⟨some "org.bluez.Error.Failed"⟩).2.2.2.2.2 (by decide)⟩

/-- Errors returned by the agent callbacks: `org.bluez.Error.Rejected`
and `org.bluez.Error.Canceled`. -/
inductive AgentError
  | rejected
  | canceled
deriving Repr, DecidableEq

/-- The pairing agent (`struct DBusBluetoothAgent`): display name of
the bound device and the device path it answers for. -/
structure DBusBluetoothAgent where
  device_name : String
  device_path : String
deriving Repr, DecidableEq

/-- Successive results of `io::stdin().read_line(..)`: `Except.error ()`
is a failed read, `Except.ok s` appends `s` to the buffer.  Reading at
end of input is a successful read that appends nothing, which both
line-reading callbacks turn into the canceled outcome; the model
therefore returns `canceled` when the list is exhausted. -/
abbrev StdinLines := List (Except Unit String)

/-- UTF-8 encoded size of one character (1 to 4 bytes). -/
def utf8_char_size (c : Char) : Nat :=
  if c.toNat < 128 then 1
  else if c.toNat < 2048 then 2
  else if c.toNat < 65536 then 3
  else 4

/-- Model of Rust `str::len`: the UTF-8 byte length of the string
(as checked by `pin_code.len() > 16` on the read line, trailing
newline included in the line itself). -/
def utf8_len (s : String) : Nat := (s.data.map utf8_char_size).sum

/-- The read-retry loop of `DBusBluetoothAgent::request_pin_code`:
re-prompts while the read fails or the line exceeds 16 UTF-8 bytes;
an empty accepted line cancels, any other accepted line is the PIN. -/
def read_pin_loop : StdinLines → Except AgentError String × StdinLines
  | [] => (Except.error AgentError.canceled, [])
  | Except.error _ :: rest => read_pin_loop rest
  | Except.ok s :: rest =>
    if 16 < utf8_len s then read_pin_loop rest
    else if s = "" then (Except.error AgentError.canceled, rest)
    else (Except.ok s, rest)

/-- `DBusBluetoothAgent::request_pin_code`
(`src/bluetooth/bluez/mod.rs:297-319`): rejects a mismatched device
path without reading, otherwise runs the read loop. -/
def request_pin_code (a : DBusBluetoothAgent) (device : String) (stdin : StdinLines) :
    Except AgentError String × StdinLines :=
  if device ≠ a.device_path then (Except.error AgentError.rejected, stdin)
  else read_pin_loop stdin

/-- `DBusBluetoothAgent::display_pin_code`: rejects a mismatched device
path, otherwise prints informationally and succeeds. -/
def display_pin_code (a : DBusBluetoothAgent) (device : String) (_pincode : String) :
    Except AgentError Unit :=
  if device ≠ a.device_path then Except.error AgentError.rejected
  else Except.ok ()

/-- Model of Rust `str::trim`: strip whitespace from both ends. -/
def rust_trim (s : String) : String :=
  String.mk (((s.data.dropWhile Char.isWhitespace).reverse.dropWhile Char.isWhitespace).reverse)

/-- Model of Rust `str::parse::<u32>`: an optional leading plus sign
followed by at least one digit, value below `2^32`. -/
def parse_u32 (s : String) : Option Nat :=
  let digits :=
    match s.data with
    | '+' :: rest => rest
    | chars => chars
  if digits ≠ [] ∧ digits.all Char.isDigit then
    let v := digits.foldl (fun acc c => acc * 10 + (c.toNat - 48)) 0
    if v < 4294967296 then some v else none
  else none

/-- The read-retry loop of `DBusBluetoothAgent::request_passkey`:
an accepted line that trims to empty cancels; a parsed integer below
1,000,000 is returned; anything else re-prompts. -/
def read_passkey_loop : StdinLines → Except AgentError Nat × StdinLines
  | [] => (Except.error AgentError.canceled, [])
  | Except.error _ :: rest => read_passkey_loop rest
  | Except.ok s :: rest =>
    if rust_trim s = "" then (Except.error AgentError.canceled, rest)
    else
      match parse_u32 (rust_trim s) with
      | some n => if n < 1000000 then (Except.ok n, rest) else read_passkey_loop rest
      | none => read_passkey_loop rest

/-- `DBusBluetoothAgent::request_passkey`
(`src/bluetooth/bluez/mod.rs:334-364`). -/
def request_passkey (a : DBusBluetoothAgent) (device : String) (stdin : StdinLines) :
    Except AgentError Nat × StdinLines :=
  if device ≠ a.device_path then (Except.error AgentError.rejected, stdin)
  else read_passkey_loop stdin

/-- `DBusBluetoothAgent::display_passkey`: rejects a mismatched device
path, otherwise prints informationally and succeeds. -/
def display_passkey (a : DBusBluetoothAgent) (device : String) (_passkey : Nat)
    (_entered : Nat) : Except AgentError Unit :=
  if device ≠ a.device_path then Except.error AgentError.rejected
  else Except.ok ()

/-- Successive results of the single-byte `io::stdin().read(..)` calls in
`request_confirmation`: `none` is a read that did not yield one byte. -/
abbrev StdinBytes := List (Option Char)

/-- The confirmation read loop: `y` succeeds, `n` is the rejected
outcome, anything else re-prompts; exhausting the input leaves the
source looping forever, modelled as `none`. -/
def read_confirm_loop : StdinBytes → Option (Except AgentError Unit × StdinBytes)
  | [] => none
  | none :: rest => read_confirm_loop rest
  | some c :: rest =>
    if c = 'y' then some (Except.ok (), rest)
    else if c = 'n' then some (Except.error AgentError.rejected, rest)
    else read_confirm_loop rest

/-- `DBusBluetoothAgent::request_confirmation`
(`src/bluetooth/bluez/mod.rs:380-403`). -/
def request_confirmation (a : DBusBluetoothAgent) (device : String) (_passkey : Nat)
    (stdin : StdinBytes) : Option (Except AgentError Unit × StdinBytes) :=
  if device ≠ a.device_path then some (Except.error AgentError.rejected, stdin)
  else read_confirm_loop stdin

/-- `DBusBluetoothAgent::request_authoritation`: rejects a mismatched
device path, otherwise auto-approves. -/
def request_authoritation (a : DBusBluetoothAgent) (device : String) :
    Except AgentError Unit :=
  if device ≠ a.device_path then Except.error AgentError.rejected
  else Except.ok ()

/-- `DBusBluetoothAgent::authorize_service`: rejects a mismatched device
path, otherwise auto-approves. -/
def authorize_service (a : DBusBluetoothAgent) (device : String) (_uuid : String) :
    Except AgentError Unit :=
  if device ≠ a.device_path then Except.error AgentError.rejected
  else Except.ok ()

/-- `DBusBluetoothAgent::release`: no-op acknowledgement. -/
def agent_release (_a : DBusBluetoothAgent) : Except AgentError Unit := Except.ok ()

/-- `DBusBluetoothAgent::cancel`: no-op acknowledgement. -/
def agent_cancel (_a : DBusBluetoothAgent) : Except AgentError Unit := Except.ok ()

/-- C5: every device-scoped challenge callback of the agent, invoked
with a device path different from the bound target, returns the
rejection error and consumes no input. -/
theorem C5_mismatched_path_rejected (a : DBusBluetoothAgent) (device : String)
    (stdin : StdinLines) (stdinb : StdinBytes) (pincode : String)
    (passkey entered : Nat) (uuid : String) (h : device ≠ a.device_path) :
    request_pin_code a device stdin = (Except.error AgentError.rejected, stdin) ∧
    display_pin_code a device pincode = Except.error AgentError.rejected ∧
    request_passkey a device stdin = (Except.error AgentError.rejected, stdin) ∧
    display_passkey a device passkey entered = Except.error AgentError.rejected ∧
    request_confirmation a device passkey stdinb =
      some (Except.error AgentError.rejected, stdinb) ∧
    request_authoritation a device = Except.error AgentError.rejected ∧
    authorize_service a device uuid = Except.error AgentError.rejected := by
  refine ⟨?_, ?_, ?_, ?_, ?_, ?_, ?_⟩ <;>
    simp [request_pin_code, display_pin_code, request_passkey, display_passkey,
      request_confirmation, request_authoritation, authorize_service, h]

/-- Witness for C5: the agent bound to `/org/bluez/hci0/dev_AA` rejects
all seven challenges for `/org/bluez/hci0/dev_BB` without touching the
pending input. -/
theorem C5_mismatched_path_rejected_witness :
    request_pin_code (DBusBluetoothAgent.mk "Mouse" "/org/bluez/hci0/dev_AA")
      "/org/bluez/hci0/dev_BB" [Except.ok "1234"] =
      (Except.error AgentError.rejected, [Except.ok "1234"]) ∧
    request_confirmation (DBusBluetoothAgent.mk "Mouse" "/org/bluez/hci0/dev_AA")
      "/org/bluez/hci0/dev_BB" 42 [some 'y'] =
      some (Except.error AgentError.rejected, [some 'y']) := by
  have h := C5_mismatched_path_rejected
    (DBusBluetoothAgent.mk "Mouse" "/org/bluez/hci0/dev_AA")
    "/org/bluez/hci0/dev_BB" [Except.ok "1234"] [some 'y'] "p" 42 0 "uuid"
    (by decide)
  exact ⟨h.1, h.2.2.2.2.1⟩

/-- Every character takes at least one UTF-8 byte, so the byte length
bounds the character count. -/
theorem length_le_utf8_len (s : String) : s.length ≤ utf8_len s := by
  rw [utf8_len, String.length]
  induction s.data with
  | nil => simp
  | cons c cs ih =>
    have hc : 1 ≤ utf8_char_size c := by
      rw [utf8_char_size]
      repeat' split
      all_goals omega
    simp only [List.length_cons, List.map_cons, List.sum_cons]
    omega

/-- Any PIN accepted by the read loop is non-empty and at most 16 UTF-8
bytes (hence at most 16 characters) long. -/
theorem read_pin_loop_ok_bound (stdin : StdinLines) (p : String) (rest : StdinLines)
    (h : read_pin_loop stdin = (Except.ok p, rest)) : p ≠ "" ∧ utf8_len p ≤ 16 := by
  induction stdin generalizing rest with
  | nil => simp [read_pin_loop] at h
  | cons x xs ih =>
    cases x with
    | error e => exact ih rest (by simpa [read_pin_loop] using h)
    | ok s =>
      by_cases h16 : 16 < utf8_len s
      · exact ih rest (by simpa [read_pin_loop, h16] using h)
      · by_cases hs : s = ""
        · rw [hs] at h
          simp [read_pin_loop, show utf8_len "" = 0 from rfl] at h
        · have hps : (Except.ok s : Except AgentError String) = Except.ok p ∧ xs = rest := by
            simpa [read_pin_loop, h16, hs] using h
          have hsp : s = p := by
            simpa using hps.1
          subst hsp
          exact ⟨hs, Nat.le_of_not_lt h16⟩

/-- C6: on the bound device path, an empty PIN line and a
whitespace-only (in particular empty) passkey line immediately yield the
canceled outcome without any retry; a non-empty accepted PIN line of at
most 16 UTF-8 bytes is returned verbatim; and every PIN the callback
ever returns is non-empty and at most 16 bytes, hence at most 16
characters (the read is bounded). -/
theorem C6_empty_input_cancels (a : DBusBluetoothAgent) (stdin : StdinLines) (s : String) :
    (request_pin_code a a.device_path (Except.ok "" :: stdin) =
      (Except.error AgentError.canceled, stdin)) ∧
    (rust_trim s = "" →
      request_passkey a a.device_path (Except.ok s :: stdin) =
        (Except.error AgentError.canceled, stdin)) ∧
    (s ≠ "" → utf8_len s ≤ 16 →
      request_pin_code a a.device_path (Except.ok s :: stdin) = (Except.ok s, stdin)) ∧
    (∀ p rest, request_pin_code a a.device_path stdin = (Except.ok p, rest) →
      p ≠ "" ∧ utf8_len p ≤ 16 ∧ p.length ≤ 16) := by
  refine ⟨?_, ?_, ?_, ?_⟩
  · have h0 : utf8_len "" = 0 := rfl
    simp [request_pin_code, read_pin_loop, h0]
  · intro hs
    simp [request_passkey, read_passkey_loop, hs]
  · intro hs h16
    simp [request_pin_code, read_pin_loop, hs, Nat.not_lt.mpr h16]
  · intro p rest h
    have hb := read_pin_loop_ok_bound stdin p rest (by simpa [request_pin_code] using h)
    exact ⟨hb.1, hb.2, Nat.le_trans (length_le_utf8_len p) hb.2⟩

/-- Witness for C6: with the bound path, the empty line cancels the PIN
and passkey requests, and the line "1234" is returned as the raw PIN. -/
theorem C6_empty_input_cancels_witness :
    request_pin_code (DBusBluetoothAgent.mk "Mouse" "/dev_AA") "/dev_AA"
      [Except.ok ""] = (Except.error AgentError.canceled, []) ∧
    request_passkey (DBusBluetoothAgent.mk "Mouse" "/dev_AA") "/dev_AA"
      [Except.ok ""] = (Except.error AgentError.canceled, []) ∧
    request_pin_code (DBusBluetoothAgent.mk "Mouse" "/dev_AA") "/dev_AA"
      [Except.ok "1234"] = (Except.ok "1234", []) := by
  have h := C6_empty_input_cancels (DBusBluetoothAgent.mk "Mouse" "/dev_AA") [] "1234"
  have h0 := C6_empty_input_cancels (DBusBluetoothAgent.mk "Mouse" "/dev_AA") [] ""
  exact ⟨h.1, h0.2.1 (by decide), h.2.2.1 (by decide) (by decide)⟩

/-- `Device::name_len` (character count of the name; the source returns
it as `u8`, panicking past 255, which the 248-character protocol bound
keeps honest). -/
def name_len (d : Device) : Nat := d.name.length

/-- `name.contains(char::is_whitespace)`. -/
def has_whitespace (s : String) : Bool := s.data.any Char.isWhitespace

/-- `struct DeviceList` (`src/bluetooth/devices.rs:284-293`): the
records plus the aggregate presentation metadata. -/
structure DeviceList where
  devices : List Device
  quote_names : Bool
  print_in_color : Bool
  max_name_len : Nat
  min_name_len : Nat
deriving Repr, DecidableEq

/-- `DeviceList::new`: empty list with default metadata. -/
def DeviceList.new : DeviceList :=
  { devices := [], quote_names := false, print_in_color := true,
    max_name_len := 0, min_name_len := 0 }

/-- `DeviceList::add_device` (`src/bluetooth/devices.rs:316-328`).
Note the metadata updates: `max_name_len` folds with `max`, while
`min_name_len` is assigned `self.max_name_len.min(name_len)` with the
freshly updated maximum, i.e. always the new record's own length. -/
def DeviceList.add_device (lst : DeviceList) (new : Device) : DeviceList :=
  let device := { new with name_in_color := lst.print_in_color }
  let new_max := Nat.max lst.max_name_len (name_len device)
  { lst with
    quote_names := lst.quote_names || has_whitespace device.name,
    max_name_len := new_max,
    min_name_len := Nat.min new_max (name_len device),
    devices := lst.devices ++ [device] }

/-- `DeviceList::filtered` (`src/bluetooth/devices.rs:392-407`): a fresh
list (metadata at the defaults of `new`) holding the records satisfying
the predicate. -/
def DeviceList.filtered (lst : DeviceList) (filter : Device → Bool) : DeviceList :=
  { DeviceList.new with devices := lst.devices.filter filter }

/-- Abstract compiled regex from the external `regex` crate:
`is_match` backs the full-match filter, `find_is_some` the
substring-match filter. -/
structure RegexM where
  is_match : String → Bool
  find_is_some : String → Bool

/-- `DeviceList::filtered_name_full_regex`
(`src/bluetooth/devices.rs:430-435`), parameterized by the external
`Regex::new` compiler: a malformed pattern (compiler returns `none`)
yields a fresh empty list. -/
def DeviceList.filtered_name_full_regex (compile : String → Option RegexM)
    (lst : DeviceList) (regex : String) : DeviceList :=
  match compile regex with
  | some re => lst.filtered (fun device => re.is_match device.name)
  | none => DeviceList.new

/-- `DeviceList::filtered_name_contains_regex`
(`src/bluetooth/devices.rs:438-443`). -/
def DeviceList.filtered_name_contains_regex (compile : String → Option RegexM)
    (lst : DeviceList) (regex : String) : DeviceList :=
  match compile regex with
  | some re => lst.filtered (fun device => re.find_is_some device.name)
  | none => DeviceList.new

/-- The `'` quote character. -/
def quote_mark : String := String.mk [Char.ofNat 39]

/-- The ANSI reset sequence. -/
def ANSI_RESET_STR : String := "\x1b[0m"

/-- `Device::ansi_color_codes`. -/
def ansi_color_codes (d : Device) : String :=
  if !d.name_in_color then ""
  else if d.paired = false then "\x1b[2;37m"
  else if d.connected = true then "\x1b[1;34m"
  else "\x1b[22;39m"

/-- `Device::ansi_color_reset`. -/
def ansi_color_reset (d : Device) : String :=
  if d.name_in_color then ANSI_RESET_STR else ""

/-- `Device::get_name_colored`. -/
def get_name_colored (d : Device) : String :=
  ansi_color_codes d ++ d.name ++ ansi_color_reset d

/-- `Device::quoted_name`: the name surrounded by the quote string when
it contains whitespace, by the placeholder otherwise. -/
def quoted_name (d : Device) (quotes placeholder : String) : String :=
  let sel := if has_whitespace d.name then quotes else placeholder
  ansi_color_codes d ++ sel ++ d.name ++ sel ++ ansi_color_reset d

/-- `DeviceList::correctly_quoted_device_name`
(`src/bluetooth/devices.rs:446-452`). -/
def DeviceList.correctly_quoted_device_name (lst : DeviceList) (d : Device) : String :=
  if lst.quote_names then quoted_name d quote_mark " " else get_name_colored d

/-- Per-candidate layout state of `print_lines`: one tracked width per
column and the running total row width (`u16` in the source). -/
structure ColsInfo where
  widths : List Nat
  total_w : Nat
deriving Repr, DecidableEq

/-- `let extra_char_num = 2 + 2 * u8::from(self.quote_names)`. -/
def extra_char_num (quote_names : Bool) : Nat :=
  2 + 2 * (if quote_names then 1 else 0)

/-- Initial candidate states for every column count from `min_cols` to
`max_cols`: zero widths and `extra_char_num * cols_num` reserved. -/
def init_col_infos (extra min_cols max_cols : Nat) : List ColsInfo :=
  (List.range' min_cols (max_cols + 1 - min_cols)).map
    (fun c => ColsInfo.mk (List.replicate c 0) ((extra * c) % 65536))

/-- One device's pass over the candidate list
(`src/bluetooth/devices.rs:528-547`): a candidate already beyond
`max_w` stops the scan (`break`), leaving the remaining candidates
untouched for this device; otherwise the device's column (round-robin
`idx % cols`) grows to the device's name length, charging the increase
to the running total. -/
def update_device (max_w len idx : Nat) : List ColsInfo → List ColsInfo
  | [] => []
  | ci :: rest =>
    if max_w < ci.total_w then ci :: rest
    else
      let j := idx % ci.widths.length
      let w := ci.widths.getD j 0
      if w < len then
        ColsInfo.mk (ci.widths.set j (w + (len - w))) ((ci.total_w + (len - w)) % 65536) ::
          update_device max_w len idx rest
      else ci :: update_device max_w len idx rest

/-- The device loop of `print_lines`, enumerating the records. -/
def process_devices (max_w : Nat) : Nat → List Nat → List ColsInfo → List ColsInfo
  | _, [], cis => cis
  | idx, len :: rest, cis => process_devices max_w (idx + 1) rest (update_device max_w len idx cis)

/-- Final selection (`src/bluetooth/devices.rs:549-559`): the first
candidate, scanning from the most columns down, whose tracked total fits
`max_w`; the default when none fits is the single column of width
`max_name_len`. -/
def select_col_info (max_w max_name_len : Nat) (cis : List ColsInfo) : ColsInfo :=
  match cis.reverse.find? (fun ci => decide (ci.total_w ≤ max_w)) with
  | some ci => ci
  | none => ColsInfo.mk [max_name_len] max_w

/-- `max_w.checked_div(max_name_len).unwrap_or(0)`: the lower candidate
bound of `print_lines` (all names as long as the longest). -/
def grid_min_cols (max_w max_name_len : Nat) : Nat :=
  if max_name_len = 0 then 0 else max_w / max_name_len

/-- `max_w.checked_div(min_name_len).unwrap_or(max_w)`: the upper
candidate bound of `print_lines` (all names as long as the shortest). -/
def grid_max_cols (max_w min_name_len : Nat) : Nat :=
  if min_name_len = 0 then max_w else max_w / min_name_len

/-- The column-selection core of `DeviceList::print_lines`
(`src/bluetooth/devices.rs:488-559`) over the list of name lengths:
`none` is the `min_cols == 0` early fallback to `print_fullline`. -/
def print_lines_grid (max_w : Nat) (quote_names : Bool) (max_name_len min_name_len : Nat)
    (lens : List Nat) : Option ColsInfo :=
  let min_cols := grid_min_cols max_w max_name_len
  let max_cols := grid_max_cols max_w min_name_len
  if min_cols = 0 then none
  else
    some (select_col_info max_w max_name_len
      (process_devices max_w 0 (lens)
        (init_col_infos (extra_char_num quote_names) min_cols max_cols)))

/-- The two rendering shapes `print_lines` can take. -/
inductive PrintMode
  | fullline
  | grid (ci : ColsInfo)
deriving Repr, DecidableEq

/-- `DeviceList::print_lines` restricted to its layout decision. -/
def DeviceList.print_lines_choice (lst : DeviceList) (max_w : Nat) : PrintMode :=
  match print_lines_grid max_w lst.quote_names lst.max_name_len lst.min_name_len
      (lst.devices.map name_len) with
  | none => PrintMode.fullline
  | some ci => PrintMode.grid ci

/-- A record behind its own mutex: the lock may be poisoned by a thread
that panicked while holding it. -/
structure MutexDevice where
  poisoned : Bool
  device : Device
deriving Repr, DecidableEq

/-- The `_async_all_devices!` macro of `src/bluetooth/devices.rs:269-280`
(sequential): each record is locked with
`lock().expect("Mutex should not be poisoned.")` — a poisoned lock
panics the caller, modelled as `Except.error ()`; otherwise the
per-device action's successes are counted. -/
def async_all_devices_seq (action : Device → Bool) : List MutexDevice → Except Unit Int
  | [] => Except.ok 0
  | md :: rest =>
    if md.poisoned then Except.error ()
    else
      match async_all_devices_seq action rest with
      | Except.ok n => Except.ok ((if action md.device then 1 else 0) + n)
      | Except.error e => Except.error e

/-- The `_async_all_devices!` macro of `src/bluetooth.rs:296-316`
(threaded): one thread per record; a thread that panics on a poisoned
lock fails its `join`, which the aggregation loop skips, so it
contributes nothing to the count and aborts nothing. -/
def async_all_devices_threaded (action : Device → Bool) : List MutexDevice → Int
  | [] => 0
  | md :: rest =>
    (if md.poisoned then 0 else if action md.device then 1 else 0) +
      async_all_devices_threaded action rest

/-- Fresh device with the given address and name, all state flags false,
as built by a backend refresh before state is observed. -/
def mk_device (address name : String) : Device :=
  { address := address, name := name, manager_alive := true, paired := false,
    bonded := false, trusted := false, blocked := false, connected := false,
    remote_name := none, battery := none, icon := none, name_in_color := true }

/-- C7: a malformed regex pattern (the compiler rejects it) makes both
regex filters return a fresh empty device list; the parent is untouched
(the filters are read-only functions of it). -/
theorem C7_invalid_regex_yields_empty (compile : String → Option RegexM)
    (lst : DeviceList) (pattern : String) (h : compile pattern = none) :
    DeviceList.filtered_name_full_regex compile lst pattern = DeviceList.new ∧
    DeviceList.filtered_name_contains_regex compile lst pattern = DeviceList.new := by
  constructor <;>
    simp [DeviceList.filtered_name_full_regex, DeviceList.filtered_name_contains_regex, h]

/-- Witness for C7: a compiler rejecting every pattern (as `Regex::new`
does on `"("`) yields the empty list on a one-device registry. -/
theorem C7_invalid_regex_yields_empty_witness :
    DeviceList.filtered_name_full_regex (fun _ => none)
      (DeviceList.new.add_device (mk_device "AA" "Mouse")) "(" = DeviceList.new ∧
    DeviceList.filtered_name_contains_regex (fun _ => none)
      (DeviceList.new.add_device (mk_device "AA" "Mouse")) "(" = DeviceList.new := by
  exact C7_invalid_regex_yields_empty (fun _ => none)
    (DeviceList.new.add_device (mk_device "AA" "Mouse")) "(" rfl

/-- C9 (failing input): adding "Mouse" (length 5) and then "Headset"
(length 7) leaves `min_name_len` at 7, the last-added length, while the
minimum of the recorded name lengths is 5; `max_name_len` and
`quote_names` behave as claimed at this input. -/
theorem C9_min_name_len_is_last_added :
    (((DeviceList.new.add_device (mk_device "AA" "Mouse")).add_device
        (mk_device "BB" "Headset")).min_name_len = 7) ∧
    ((((DeviceList.new.add_device (mk_device "AA" "Mouse")).add_device
        (mk_device "BB" "Headset")).devices.map name_len) = [5, 7]) ∧
    ([5, 7].min? = some 5) ∧
    (((DeviceList.new.add_device (mk_device "AA" "Mouse")).add_device
        (mk_device "BB" "Headset")).max_name_len = 7) ∧
    (((DeviceList.new.add_device (mk_device "AA" "Mouse")).add_device
        (mk_device "BB" "Headset")).quote_names = false) := by
  refine ⟨rfl, ?_, ?_, rfl, rfl⟩ <;> decide

/-- C10: every list produced by `filtered` has the default presentation
metadata, its grid printing always takes the one-device-per-line
fallback (the lower column bound is 0), and its name rendering never
adds quotes. -/
theorem C10_filtered_resets_metadata (lst : DeviceList) (f : Device → Bool)
    (max_w : Nat) (d : Device) :
    (lst.filtered f).quote_names = false ∧
    (lst.filtered f).max_name_len = 0 ∧
    (lst.filtered f).min_name_len = 0 ∧
    (lst.filtered f).print_lines_choice max_w = PrintMode.fullline ∧
    (lst.filtered f).correctly_quoted_device_name d = get_name_colored d := by
  refine ⟨rfl, rfl, rfl, ?_, ?_⟩
  · simp [DeviceList.print_lines_choice, print_lines_grid, grid_min_cols, DeviceList.filtered, DeviceList.new]
  · simp [DeviceList.correctly_quoted_device_name, DeviceList.filtered, DeviceList.new]

/-- C8 (counterexample): in the sequential bulk macro of
`src/bluetooth/devices.rs`, a poisoned per-device lock panics
(`Except.error ()`), aborting the bulk action instead of being counted
as a non-success, even with a second healthy device pending. -/
theorem C8_seq_poisoned_lock_aborts :
    async_all_devices_seq (fun _ => true)
      [MutexDevice.mk true (mk_device "AA" "Mouse"),
       MutexDevice.mk false (mk_device "BB" "Headset")] = Except.error () := rfl

/-- C8 (amended): the threaded bulk macro of `src/bluetooth.rs` counts
exactly the non-poisoned records whose action succeeds — poisoned locks
are non-successes that abort neither the bulk action nor the process —
and the sequential macro, when no lock is poisoned, invokes the action
on every record and returns the number of successes. -/
theorem C8_bulk_success_count (action : Device → Bool) (devs : List MutexDevice) :
    (async_all_devices_threaded action devs =
      ((devs.filter (fun md => !md.poisoned && action md.device)).length : Int)) ∧
    ((∀ md ∈ devs, md.poisoned = false) →
      async_all_devices_seq action devs =
        Except.ok ((devs.filter (fun md => action md.device)).length : Int)) := by
  constructor
  · induction devs with
    | nil => rfl
    | cons md rest ih =>
      by_cases hp : md.poisoned <;> by_cases ha : action md.device <;>
        simp [async_all_devices_threaded, hp, ha, ih] <;> omega
  · intro hall
    induction devs with
    | nil => rfl
    | cons md rest ih =>
      have hp : md.poisoned = false := hall md (by simp)
      have hrest := ih (fun x hx => hall x (by simp [hx]))
      by_cases ha : action md.device <;>
        simp [async_all_devices_seq, hp, ha, hrest] <;> omega

/-- Witness for C8 at concrete inputs: among a healthy paired device, a
poisoned one, and a healthy unpaired one, the threaded bulk pair counts
one success; sequentially over the two healthy devices it returns 1. -/
theorem C8_bulk_success_count_witness :
    async_all_devices_threaded (fun d => d.paired)
      [MutexDevice.mk false { mk_device "AA" "Mouse" with paired := true },
       MutexDevice.mk true { mk_device "BB" "Headset" with paired := true },
       MutexDevice.mk false (mk_device "CC" "Pen")] = 1 ∧
    async_all_devices_seq (fun d => d.paired)
      [MutexDevice.mk false { mk_device "AA" "Mouse" with paired := true },
       MutexDevice.mk false (mk_device "CC" "Pen")] = Except.ok 1 := by
  constructor
  · have h := (C8_bulk_success_count (fun d => d.paired)
      [MutexDevice.mk false { mk_device "AA" "Mouse" with paired := true },
       MutexDevice.mk true { mk_device "BB" "Headset" with paired := true },
       MutexDevice.mk false (mk_device "CC" "Pen")]).1
    simpa using h
  · have h := (C8_bulk_success_count (fun d => d.paired)
      [MutexDevice.mk false { mk_device "AA" "Mouse" with paired := true },
       MutexDevice.mk false (mk_device "CC" "Pen")]).2 (by decide)
    simpa using h

/-- Maximum of a list of widths, 0 for an empty column. -/
def max_list (l : List Nat) : Nat := l.foldr Nat.max 0

/-- Positions among `0..n-1` that round-robin assignment `i % c` places
in column `j`. -/
def assigned_idx (c j n : Nat) : List Nat :=
  (List.range n).filter (fun i => i % c = j)

/-- Specification-side per-column maximum observed width of column `j`
in a `c`-column round-robin layout of `lens`. -/
def col_max (c j : Nat) (lens : List Nat) : Nat :=
  max_list ((assigned_idx c j lens.length).map (fun i => lens.getD i 0))

/-- Specification-side total row width of a `c`-column round-robin
layout: the reserved characters per column plus every column's maximum
observed width (the "computed total row width" of the claim). -/
def true_row_width (extra c : Nat) (lens : List Nat) : Nat :=
  extra * c + ((List.range c).map (fun j => col_max c j lens)).sum

/-- The registry of the spec scenario: devices named "Keyboard",
"Headset", "Mouse" added in order. -/
def scenario_list : DeviceList :=
  ((DeviceList.new.add_device (mk_device "KK" "Keyboard")).add_device
    (mk_device "HH" "Headset")).add_device (mk_device "MM" "Mouse")

theorem max_list_append (a b : List Nat) :
    max_list (a ++ b) = Nat.max (max_list a) (max_list b) := by
  induction a with
  | nil => simp [max_list]
  | cons x xs ih =>
    simp only [List.cons_append, max_list, List.foldr_cons] at *
    rw [ih]
    exact (Nat.max_assoc x _ _).symm

theorem le_max_list {x : Nat} {l : List Nat} (h : x ∈ l) : x ≤ max_list l := by
  induction l with
  | nil => cases h
  | cons y ys ih =>
    rcases List.mem_cons.mp h with rfl | h
    · exact Nat.le_max_left _ _
    · exact Nat.le_trans (ih h) (Nat.le_max_right _ _)

theorem col_max_snoc (c j len : Nat) (lens : List Nat) :
    col_max c j (lens ++ [len]) =
      if lens.length % c = j then Nat.max (col_max c j lens) len
      else col_max c j lens := by
  unfold col_max assigned_idx
  rw [List.length_append, List.length_singleton, List.range_succ, List.filter_append,
    List.map_append, max_list_append]
  have hleft : ((List.filter (fun i => decide (i % c = j)) (List.range lens.length)).map
      (fun i => (lens ++ [len]).getD i 0)) =
      ((List.filter (fun i => decide (i % c = j)) (List.range lens.length)).map
      (fun i => lens.getD i 0)) := by
    apply List.map_congr_left
    intro i hi
    have : i < lens.length := List.mem_range.mp (List.mem_filter.mp hi).1
    exact List.getD_append _ _ _ _ this
  rw [hleft]
  by_cases hmod : lens.length % c = j
  · have hr : (lens ++ [len]).getD lens.length 0 = len := by
      rw [List.getD_append_right _ _ _ _ (Nat.le_refl _), Nat.sub_self]
      rfl
    simp [hmod, max_list, hr]
  · simp [hmod, max_list]

theorem col_max_mono (c j len : Nat) (lens : List Nat) :
    col_max c j lens ≤ col_max c j (lens ++ [len]) := by
  rw [col_max_snoc]
  split
  · exact Nat.le_max_left _ _
  · exact Nat.le_refl _

theorem len_le_col_max_snoc (c len : Nat) (lens : List Nat) :
    len ≤ col_max c (lens.length % c) (lens ++ [len]) := by
  rw [col_max_snoc]
  simp

theorem getD_set_self (l : List Nat) (j x : Nat) (h : j < l.length) :
    (l.set j x).getD j 0 = x := by
  induction l generalizing j with
  | nil => simp at h
  | cons y ys ih =>
    cases j with
    | zero => rfl
    | succ j => exact ih j (by simpa using h)

theorem getD_set_ne (l : List Nat) (i j x : Nat) (h : i ≠ j) :
    (l.set i x).getD j 0 = l.getD j 0 := by
  induction l generalizing i j with
  | nil => simp
  | cons y ys ih =>
    cases i with
    | zero =>
      cases j with
      | zero => exact absurd rfl h
      | succ j => rfl
    | succ i =>
      cases j with
      | zero => rfl
      | succ j => exact ih i j (fun hc => h (by rw [hc]))

theorem sum_set_getD (l : List Nat) (j x : Nat) (h : j < l.length) :
    (l.set j x).sum + l.getD j 0 = l.sum + x := by
  induction l generalizing j with
  | nil => simp at h
  | cons y ys ih =>
    cases j with
    | zero => simp [List.set, Nat.add_comm, Nat.add_assoc, Nat.add_left_comm]
    | succ j =>
      have := ih j (by simpa using h)
      simp only [List.set, List.sum_cons, List.getD_cons_succ]
      omega

theorem sum_eq_range_getD (l : List Nat) :
    ((List.range l.length).map (fun j => l.getD j 0)).sum = l.sum := by
  induction l with
  | nil => simp
  | cons x xs ih =>
    rw [List.length_cons, List.range_succ_eq_map]
    simp only [List.map_cons, List.getD_cons_zero, List.map_map, List.sum_cons]
    have : (List.map ((fun j => (x :: xs).getD j 0) ∘ Nat.succ) (List.range xs.length)) =
        List.map (fun j => xs.getD j 0) (List.range xs.length) := by
      apply List.map_congr_left
      intro i _
      rfl
    rw [this, ih]

theorem getD_replicate_zero (c j : Nat) : (List.replicate c (0 : Nat)).getD j 0 = 0 := by
  induction c generalizing j with
  | zero => rfl
  | succ c ih =>
    cases j with
    | zero => rfl
    | succ j => exact ih j

/-- Invariant tying one candidate state of the device loop at column
count `c` to the processed prefix of name lengths: the widths vector has
one slot per column, the running total is exactly the reserved
characters plus the tracked widths, and every tracked width is below the
column's true maximum over the processed prefix. -/
def layout_inv (extra max_w : Nat) (lens : List Nat) (ci : ColsInfo) (c : Nat) : Prop :=
  0 < c ∧ ci.widths.length = c ∧ ci.total_w = extra * c + ci.widths.sum ∧
    ∀ j, j < c → ci.widths.getD j 0 ≤ col_max c j lens

theorem layout_inv_mono {extra max_w : Nat} {lens : List Nat} {len : Nat}
    {ci : ColsInfo} {c : Nat} (h : layout_inv extra max_w lens ci c) :
    layout_inv extra max_w (lens ++ [len]) ci c := by
  obtain ⟨hc0, hlen, htot, hbound⟩ := h
  exact ⟨hc0, hlen, htot, fun j hj =>
    Nat.le_trans (hbound j hj) (col_max_mono c j len lens)⟩

theorem forall₂_map_self {α β : Type} {R : β → α → Prop} {f : α → β} :
    ∀ {cs : List α}, (∀ c ∈ cs, R (f c) c) → List.Forall₂ R (cs.map f) cs
  | [], _ => List.Forall₂.nil
  | c :: cs, h =>
    List.Forall₂.cons (h c (by simp))
      (forall₂_map_self (fun x hx => h x (by simp [hx])))

theorem forall₂_mem_right {α β : Type} {R : α → β → Prop} :
    ∀ {l₁ : List α} {l₂ : List β}, List.Forall₂ R l₁ l₂ → ∀ b ∈ l₂, ∃ a ∈ l₁, R a b := by
  intro l₁ l₂ h
  induction h with
  | nil => intro b hb; cases hb
  | cons hR _ ih =>
    intro b hb
    rcases List.mem_cons.mp hb with rfl | hb
    · exact ⟨_, by simp, hR⟩
    · obtain ⟨a, ha, haR⟩ := ih b hb
      exact ⟨a, by simp [ha], haR⟩

/-- Initial candidate states satisfy the invariant for the empty
prefix. -/
theorem init_col_infos_inv (extra max_w min_cols max_cols : Nat) (hmin : 0 < min_cols)
    (hextra : ∀ c, c ≤ max_cols → extra * c < 65536) :
    List.Forall₂ (layout_inv extra max_w [])
      (init_col_infos extra min_cols max_cols)
      (List.range' min_cols (max_cols + 1 - min_cols)) := by
  unfold init_col_infos
  apply forall₂_map_self
  intro c hc
  have hrange := List.mem_range'_1.mp hc
  have hcmax : c ≤ max_cols := by omega
  have hc0 : 0 < c := by omega
  refine ⟨hc0, by simp, ?_, ?_⟩
  · have hsum : (List.replicate c (0 : Nat)).sum = 0 := by
      simp
    simp only [hsum, Nat.add_zero]
    exact Nat.mod_eq_of_lt (hextra c hcmax)
  · intro j _
    rw [getD_replicate_zero]
    exact Nat.zero_le _

/-- One device's pass over the candidates preserves the invariant,
extending the processed prefix by the device's name length: an updated
candidate's touched column stays below the new true maximum, and the
candidates skipped by the early `break` only see their bound relax. -/
theorem update_device_inv (extra max_w len : Nat) (P : List Nat)
    (hlen255 : len ≤ 255) (hw : max_w ≤ 65280) :
    ∀ {cis : List ColsInfo} {cs : List Nat},
      List.Forall₂ (layout_inv extra max_w P) cis cs →
      List.Forall₂ (layout_inv extra max_w (P ++ [len]))
        (update_device max_w len P.length cis) cs := by
  intro cis cs h
  induction h with
  | nil => exact List.Forall₂.nil
  | @cons ci c cis2 cs2 hR htail ih =>
    by_cases hbreak : max_w < ci.total_w
    · rw [update_device]
      simp only [hbreak, if_true]
      exact List.Forall₂.cons (layout_inv_mono hR) (htail.imp (fun _ _ => layout_inv_mono))
    · obtain ⟨hc0, hlen, htot, hbound⟩ := hR
      have hjlt : P.length % ci.widths.length < ci.widths.length := by
        apply Nat.mod_lt
        omega
      by_cases hupd : ci.widths.getD (P.length % ci.widths.length) 0 < len
      · rw [update_device]
        simp only [hbreak, if_false, hupd, if_true]
        refine List.Forall₂.cons ?_ ih
        refine ⟨hc0, by simpa using hlen, ?_, ?_⟩
        · dsimp only
          rw [Nat.mod_eq_of_lt (by omega :
            ci.total_w + (len - ci.widths.getD (P.length % ci.widths.length) 0) < 65536)]
          have hset := sum_set_getD ci.widths (P.length % ci.widths.length)
            (ci.widths.getD (P.length % ci.widths.length) 0 +
              (len - ci.widths.getD (P.length % ci.widths.length) 0)) hjlt
          omega
        · intro j hj
          dsimp only
          by_cases hje : P.length % ci.widths.length = j
          · rw [hje] at hjlt hupd
            rw [hje, getD_set_self _ _ _ hjlt]
            have hwl : ci.widths.getD j 0 + (len - ci.widths.getD j 0) = len := by omega
            rw [hwl]
            have hjc : P.length % c = j := by
              rw [← hlen]
              exact hje
            rw [← hjc]
            exact len_le_col_max_snoc c len P
          · rw [getD_set_ne _ _ _ _ hje]
            exact Nat.le_trans (hbound j hj) (col_max_mono c j len P)
      · rw [update_device]
        simp only [hbreak, if_false, hupd, if_false]
        exact List.Forall₂.cons (layout_inv_mono ⟨hc0, hlen, htot, hbound⟩) ih

/-- The whole device loop preserves the invariant from any processed
prefix. -/
theorem process_devices_inv (extra max_w : Nat) (hw : max_w ≤ 65280) :
    ∀ (rest P : List Nat) {cis : List ColsInfo} {cs : List Nat},
      (∀ l ∈ rest, l ≤ 255) →
      List.Forall₂ (layout_inv extra max_w P) cis cs →
      List.Forall₂ (layout_inv extra max_w (P ++ rest))
        (process_devices max_w P.length rest cis) cs := by
  intro rest
  induction rest with
  | nil =>
    intro P cis cs _ h
    simpa [process_devices] using h
  | cons len rest ih =>
    intro P cis cs hrest h
    have h1 := update_device_inv extra max_w len P (hrest len (by simp)) hw h
    have h2 := ih (P ++ [len]) (fun l hl => hrest l (by simp [hl])) h1
    have hlen1 : (P ++ [len]).length = P.length + 1 := by simp
    rw [hlen1] at h2
    simpa [process_devices, List.append_assoc] using h2

/-- The invariant bounds a candidate's tracked running total by the true
row width of its column count. -/
theorem layout_inv_total_le {extra max_w : Nat} {lens : List Nat} {ci : ColsInfo} {c : Nat}
    (h : layout_inv extra max_w lens ci c) :
    ci.total_w ≤ true_row_width extra c lens := by
  obtain ⟨hc0, hlen, htot, hbound⟩ := h
  rw [htot, true_row_width]
  have h1 : ci.widths.sum = ((List.range ci.widths.length).map
      (fun j => ci.widths.getD j 0)).sum := (sum_eq_range_getD _).symm
  have h2 : ((List.range c).map (fun j => ci.widths.getD j 0)).sum ≤
      ((List.range c).map (fun j => col_max c j lens)).sum := by
    apply List.sum_le_sum
    intro j hj
    exact hbound j (List.mem_range.mp hj)
  rw [h1, hlen]
  omega

/-- Structural reformulation of the reversed `find?` scan of
`select_col_info`: the last candidate in order whose tracked total
fits. -/
def last_fit (max_w : Nat) : List ColsInfo → Option ColsInfo
  | [] => none
  | ci :: rest =>
    match last_fit max_w rest with
    | some r => some r
    | none => if ci.total_w ≤ max_w then some ci else none

theorem find?_reverse_eq_last_fit (max_w : Nat) (cis : List ColsInfo) :
    cis.reverse.find? (fun ci => decide (ci.total_w ≤ max_w)) = last_fit max_w cis := by
  induction cis with
  | nil => rfl
  | cons ci rest ih =>
    rw [List.reverse_cons, List.find?_append, ih, last_fit]
    cases h : last_fit max_w rest with
    | some r => rfl
    | none =>
      simp only [Option.or, List.find?]
      by_cases hle : ci.total_w ≤ max_w
      · simp [hle]
      · simp [hle]

theorem select_eq_last_fit (max_w mnl : Nat) (cis : List ColsInfo) :
    select_col_info max_w mnl cis =
      (last_fit max_w cis).getD (ColsInfo.mk [mnl] max_w) := by
  unfold select_col_info
  rw [find?_reverse_eq_last_fit]
  cases last_fit max_w cis <;> rfl

theorem last_fit_mem (max_w : Nat) :
    ∀ {cis : List ColsInfo} {r : ColsInfo}, last_fit max_w cis = some r → r ∈ cis := by
  intro cis
  induction cis with
  | nil => intro r h; cases h
  | cons ci rest ih =>
    intro r h
    rw [last_fit] at h
    cases hrest : last_fit max_w rest with
    | some q =>
      rw [hrest] at h
      cases h
      exact List.mem_cons_of_mem _ (ih hrest)
    | none =>
      rw [hrest] at h
      by_cases hle : ci.total_w ≤ max_w
      · simp only [hle, if_true] at h
        cases h
        exact List.mem_cons_self _ _
      · simp [hle] at h

theorem forall₂_mem_left {α β : Type} {R : α → β → Prop} :
    ∀ {l₁ : List α} {l₂ : List β}, List.Forall₂ R l₁ l₂ → ∀ a ∈ l₁, ∃ b ∈ l₂, R a b := by
  intro l₁ l₂ h
  induction h with
  | nil => intro a ha; cases ha
  | cons hR _ ih =>
    intro a ha
    rcases List.mem_cons.mp ha with rfl | ha
    · exact ⟨_, by simp, hR⟩
    · obtain ⟨b, hb, hbR⟩ := ih a ha
      exact ⟨b, by simp [hb], hbR⟩

/-- Whenever some candidate fits, `last_fit` returns a candidate with at
least as many columns (candidate widths lengths follow the increasing
`range'` of column counts). -/
theorem last_fit_ge (max_w : Nat) :
    ∀ (k m : Nat) (cis : List ColsInfo),
      List.Forall₂ (fun ci c => ci.widths.length = c) cis (List.range' m k) →
      ∀ ci0 ∈ cis, ci0.total_w ≤ max_w →
      ∃ r, last_fit max_w cis = some r ∧ ci0.widths.length ≤ r.widths.length := by
  intro k
  induction k with
  | zero =>
    intro m cis h ci0 hmem _
    rw [List.range'] at h
    cases h
    cases hmem
  | succ k ih =>
    intro m cis h ci0 hmem hfit
    rw [List.range'_succ] at h
    cases h with
    | cons hR htail =>
      rename_i a l1
      rcases List.mem_cons.mp hmem with rfl | hmem2
      · cases hlf : last_fit max_w l1 with
        | some r =>
          have hrmem := last_fit_mem max_w hlf
          obtain ⟨cr, hcr, hcrlen⟩ := forall₂_mem_left htail r hrmem
          have hcrge : m + 1 ≤ cr := (List.mem_range'_1.mp hcr).1
          refine ⟨r, ?_, ?_⟩
          · rw [last_fit, hlf]
          · rw [hR, hcrlen]
            omega
        | none =>
          refine ⟨ci0, ?_, Nat.le_refl _⟩
          rw [last_fit, hlf]
          simp [hfit]
      · obtain ⟨r, hr, hge⟩ := ih (m + 1) l1 htail ci0 hmem2 hfit
        refine ⟨r, ?_, hge⟩
        rw [last_fit, hr]

/-- C2 (amended): `print_lines` considers only column counts between
`max_w / max_name_len` and `max_w / min_name_len`; within that range the
selected candidate has at least as many columns as any count whose true
round-robin row width (per-column maxima plus reserved characters) fits
the line; and on the spec scenario (widths 8, 7, 5 at line width 24) no
in-range candidate fits, so the printer falls back to a single column
(one name per line). -/
theorem C2_column_selection_amended (max_w : Nat) (quote : Bool) (maxl minl : Nat)
    (lens : List Nat) (hw : max_w ≤ 16000) (hlens : ∀ l ∈ lens, l ≤ 255) :
    (∀ c ci, grid_min_cols max_w maxl ≤ c → c ≤ grid_max_cols max_w minl →
      true_row_width (extra_char_num quote) c lens ≤ max_w →
      print_lines_grid max_w quote maxl minl lens = some ci →
      c ≤ ci.widths.length) ∧
    print_lines_grid 24 false 8 5 [8, 7, 5] = some (ColsInfo.mk [8] 24) := by
  constructor
  · intro c ci hc1 hc2 htrue hgrid
    by_cases hmin0 : grid_min_cols max_w maxl = 0
    · rw [print_lines_grid] at hgrid
      simp [hmin0] at hgrid
    · rw [print_lines_grid] at hgrid
      simp only [hmin0, if_false] at hgrid
      have hci : ci = select_col_info max_w maxl
          (process_devices max_w 0 lens
            (init_col_infos (extra_char_num quote) (grid_min_cols max_w maxl)
              (grid_max_cols max_w minl))) := (Option.some.inj hgrid).symm
      have hxcw : grid_max_cols max_w minl ≤ max_w := by
        rw [grid_max_cols]
        split
        · exact Nat.le_refl _
        · exact Nat.div_le_self _ _
      have hextra4 : extra_char_num quote ≤ 4 := by
        rw [extra_char_num]
        cases quote <;> simp
      have hextra : ∀ c2, c2 ≤ grid_max_cols max_w minl →
          extra_char_num quote * c2 < 65536 := by
        intro c2 hc2'
        have h1 : extra_char_num quote * c2 ≤ 4 * 16000 :=
          Nat.mul_le_mul hextra4 (Nat.le_trans hc2' (Nat.le_trans hxcw hw))
        omega
      have hinit := init_col_infos_inv (extra_char_num quote) max_w
        (grid_min_cols max_w maxl) (grid_max_cols max_w minl)
        (Nat.pos_of_ne_zero hmin0) hextra
      have hproc := process_devices_inv (extra_char_num quote) max_w (by omega)
        lens [] hlens hinit
      simp only [List.nil_append, List.length_nil] at hproc
      have hcmem : c ∈ List.range' (grid_min_cols max_w maxl)
          (grid_max_cols max_w minl + 1 - grid_min_cols max_w maxl) := by
        rw [List.mem_range'_1]
        omega
      obtain ⟨ci0, hci0mem, hci0inv⟩ := forall₂_mem_right hproc c hcmem
      have hfit : ci0.total_w ≤ max_w :=
        Nat.le_trans (layout_inv_total_le hci0inv) htrue
      have hlens2 := hproc.imp
        (fun a b hab => hab.2.1 :
          ∀ (a : ColsInfo) (b : Nat),
            layout_inv (extra_char_num quote) max_w lens a b → a.widths.length = b)
      obtain ⟨r, hrlast, hrge⟩ := last_fit_ge max_w
        (grid_max_cols max_w minl + 1 - grid_min_cols max_w maxl)
        (grid_min_cols max_w maxl) _ hlens2 ci0 hci0mem hfit
      have hci0len : ci0.widths.length = c := hci0inv.2.1
      rw [hci0len] at hrge
      rw [hci, select_eq_last_fit, hrlast]
      simpa using hrge
  · decide

/-- Witness for C2 (amended) at concrete inputs: two names of width 4 at
line width 24 give candidate range 6..6; 6 columns truly fit, and the
grid indeed selects a 6-column candidate. -/
theorem C2_column_selection_amended_witness :
    print_lines_grid 24 false 4 4 [4, 4] = some (ColsInfo.mk [4, 4, 0, 0, 0, 0] 20) ∧
    6 ≤ (ColsInfo.mk [4, 4, 0, 0, 0, 0] 20).widths.length := by
  refine ⟨by decide, ?_⟩
  exact (C2_column_selection_amended 24 false 4 4 [4, 4] (by decide)
      (by decide)).1 6 (ColsInfo.mk [4, 4, 0, 0, 0, 0] 20)
    (by decide) (by decide) (by decide) (by decide)

/-- C2 (counterexample): on the spec scenario — registry "Keyboard",
"Headset", "Mouse" (widths 8, 7, 5), line width 24, no quoting (2
reserved characters per column) — the printer selects the single-column
fallback (one name per line), not the claimed 2 columns, even though a
2-column round-robin layout (total row width 19) fits within 24. -/
theorem C2_scenario_chooses_one_column :
    scenario_list.print_lines_choice 24 = PrintMode.grid (ColsInfo.mk [8] 24) ∧
    (ColsInfo.mk [8] 24).widths.length = 1 ∧
    scenario_list.quote_names = false ∧
    scenario_list.devices.map name_len = [8, 7, 5] ∧
    true_row_width (extra_char_num scenario_list.quote_names) 2
      (scenario_list.devices.map name_len) = 19 := by
  refine ⟨by decide, rfl, rfl, by decide, by decide⟩
